import Mathlib

/-!
Verification of the backendBras roster-cache and leader-authentication core.

JavaScript strings are modelled as `List Char`; possibly-undefined request
fields and spreadsheet cells are `Option (List Char)`.  The normalizer,
the member cache, the name matching and the leadership classifier are
embedded from `src/server.js` (first version), `src/unnamed/part_002`
(last-presences cache) and `src/unnamed/part_004` (tiered name matching).
-/

namespace BackendBras

/-- JavaScript strings, modelled as lists of characters. -/
abbrev Str := List Char

/-- Whitespace characters recognised by JS `trim()` and the `\s` class
(restricted to the common ASCII whitespace set). -/
def isWs (c : Char) : Bool :=
  c == ' ' || c == '\t' || c == '\n' || c == '\r' || c == '\x0b' || c == '\x0c'

/-- Remove leading whitespace (left half of `String.prototype.trim`). -/
def trimLeft (s : Str) : Str := s.dropWhile isWs

/-- Remove trailing whitespace (right half of `String.prototype.trim`). -/
def trimRight (s : Str) : Str := (s.reverse.dropWhile isWs).reverse

/-- JS `str.trim()`. -/
def trimStr (s : Str) : Str := trimRight (trimLeft s)

/-- Case-mapping table for `String.prototype.toLowerCase` restricted to the
ASCII letters and the Latin-1 accented letters that occur in the data. -/
def upperLowerTable : List (Char × Char) :=
  [('A', 'a'), ('B', 'b'), ('C', 'c'), ('D', 'd'), ('E', 'e'), ('F', 'f'),
   ('G', 'g'), ('H', 'h'), ('I', 'i'), ('J', 'j'), ('K', 'k'), ('L', 'l'),
   ('M', 'm'), ('N', 'n'), ('O', 'o'), ('P', 'p'), ('Q', 'q'), ('R', 'r'),
   ('S', 's'), ('T', 't'), ('U', 'u'), ('V', 'v'), ('W', 'w'), ('X', 'x'),
   ('Y', 'y'), ('Z', 'z'),
   ('Á', 'á'), ('À', 'à'), ('Â', 'â'), ('Ã', 'ã'), ('Ä', 'ä'),
   ('É', 'é'), ('È', 'è'), ('Ê', 'ê'), ('Ë', 'ë'),
   ('Í', 'í'), ('Ì', 'ì'), ('Î', 'î'), ('Ï', 'ï'),
   ('Ó', 'ó'), ('Ò', 'ò'), ('Ô', 'ô'), ('Õ', 'õ'), ('Ö', 'ö'),
   ('Ú', 'ú'), ('Ù', 'ù'), ('Û', 'û'), ('Ü', 'ü'),
   ('Ç', 'ç'), ('Ñ', 'ñ')]

/-- One character of JS `toLowerCase()`. -/
def jsCharToLower (c : Char) : Char := (upperLowerTable.lookup c).getD c

/-- Canonical decompositions used by `normalize("NFD")`, restricted to the
lowercase accented Latin-1 letters (uppercase letters have already been
lowered when the decomposition runs). -/
def nfdTable : List (Char × List Char) :=
  [('á', ['a', '́']), ('à', ['a', '̀']), ('â', ['a', '̂']),
   ('ã', ['a', '̃']), ('ä', ['a', '̈']),
   ('é', ['e', '́']), ('è', ['e', '̀']), ('ê', ['e', '̂']),
   ('ë', ['e', '̈']),
   ('í', ['i', '́']), ('ì', ['i', '̀']), ('î', ['i', '̂']),
   ('ï', ['i', '̈']),
   ('ó', ['o', '́']), ('ò', ['o', '̀']), ('ô', ['o', '̂']),
   ('õ', ['o', '̃']), ('ö', ['o', '̈']),
   ('ú', ['u', '́']), ('ù', ['u', '̀']), ('û', ['u', '̂']),
   ('ü', ['u', '̈']),
   ('ç', ['c', '̧']), ('ñ', ['n', '̃'])]

/-- One character of `normalize("NFD")`. -/
def nfdChar (c : Char) : List Char := (nfdTable.lookup c).getD [c]

/-- Combining diacritical marks, the range removed by
`.replace(/[̀-ͯ]/g, "")`. -/
def isCombiningMark (c : Char) : Bool :=
  decide (0x300 ≤ c.toNat) && decide (c.toNat ≤ 0x36F)

/-- `normalizeString` of `src/server.js` lines 86-89 (basic variant):
lowercase, NFD-decompose, strip combining marks, trim. -/
def normalizeChars (s : Str) : Str :=
  trimStr ((((s.map jsCharToLower).map nfdChar).flatten).filter
    (fun c => !isCombiningMark c))

/-- Character class `[a-z0-9\s]` kept by the strict normalizer. -/
def keepStrict (c : Char) : Bool :=
  ('a' ≤ c && c ≤ 'z') || ('0' ≤ c && c ≤ '9') || isWs c

/-- `normalizeString` of `src/server.js` lines 356-365 and of
`src/unnamed/part_004` (strict variant): additionally strips every
character outside `[a-z0-9\s]` before trimming. -/
def normalizeStrictChars (s : Str) : Str :=
  trimStr (((((s.map jsCharToLower).map nfdChar).flatten).filter
    (fun c => !isCombiningMark c)).filter keepStrict)

/-- The `typeof str !== 'string'` guard: non-string input is treated as
the empty string (basic variant). -/
def normalizeVal : Option Str → Str
  | none => []
  | some s => normalizeChars s

/-- The `typeof str !== 'string'` guard for the strict variant. -/
def normalizeStrictVal : Option Str → Str
  | none => []
  | some s => normalizeStrictChars s

/-- A character that both case mapping and decomposition leave alone. -/
def stableChar (c : Char) : Bool :=
  (jsCharToLower c == c) && (nfdChar c == [c])



/-- JS `hay.includes(needle)`: substring containment. -/
def jsIncludes (hay needle : Str) : Bool := decide (needle <:+: hay)

/-- One member row of the upstream spreadsheet.  Every cell may be absent
(`undefined` in JS), hence the `Option`s. -/
structure Membro where
  Nome : Option Str
  RI : Option Str
  Cargo : Option Str
  Status : Option Str
  Lider : Option Str
  Congregacao : Option Str
deriving DecidableEq, Repr

/-- The parsed JSON body returned by the Apps Script: a `success` flag, a
member list (`getMembros`) and/or a data blob (`getLastPresencesForAllMembers`),
each possibly absent. -/
structure RespData where
  success : Option Bool
  membros : Option (List Membro)
  data : Option (List (Str × Str))
deriving DecidableEq

/-- What the upstream HTTP round trip produced, before the backend
interprets it: a transport failure, or a response with its HTTP `ok` flag,
status code, and the JSON parse result (`none` = unparseable body). -/
inductive UpstreamResponse where
  | transportFailure
  | httpResponse (ok : Bool) (status : Nat) (parsed : Option RespData)
deriving DecidableEq

/-- The distinct failure classes thrown by `fetchFromAppsScript`. -/
inductive FetchErr where
  | transport
  | httpStatus (status : Nat)
  | invalidJson
  | scriptFailure
deriving DecidableEq

/-- `fetchFromAppsScript` (`src/server.js` lines 53-71): throws on transport
failure, on a non-ok HTTP status, on an unparseable body, and on a parsed
body whose `success` field is `false`; otherwise returns the parsed data. -/
def fetchFromAppsScript : UpstreamResponse → Except FetchErr RespData
  | .transportFailure => .error .transport
  | .httpResponse ok status parsed =>
    if !ok then .error (.httpStatus status)
    else
      match parsed with
      | none => .error .invalidJson
      | some data =>
        if data.success == some false then .error .scriptFailure
        else .ok data

/-- The module-level member-cache state (`cachedMembros`,
`lastMembrosFetchTime`). -/
structure MembrosCache where
  cachedMembros : Option (List Membro)
  lastMembrosFetchTime : Nat
deriving DecidableEq

/-- `MEMBERS_CACHE_TTL = 5 * 60 * 1000` (milliseconds). -/
def MEMBERS_CACHE_TTL : Nat := 5 * 60 * 1000

/-- `getMembrosWithCache` (`src/server.js` lines 74-84).  The wall clock and
the upstream response are passed explicitly; the returned `Bool` records
whether an upstream fetch was performed on this call. -/
def getMembrosWithCache (st : MembrosCache) (now : Nat)
    (resp : UpstreamResponse) :
    Except FetchErr RespData × MembrosCache × Bool :=
  if st.cachedMembros.isSome
      && decide (now - st.lastMembrosFetchTime < MEMBERS_CACHE_TTL) then
    (.ok { success := some true, membros := st.cachedMembros, data := none },
      st, false)
  else
    match fetchFromAppsScript resp with
    | .error e => (.error e, st, true)
    | .ok data =>
      if data.success == some true then
        (.ok data,
          { cachedMembros := data.membros, lastMembrosFetchTime := now },
          true)
      else (.ok data, st, true)

/-- The last-presences cache of `src/unnamed/part_002`
(`cachedLastPresences`, `lastPresencesFetchTime`). -/
structure PresencesCache where
  cachedLastPresences : Option (List (Str × Str))
  lastPresencesFetchTime : Nat
deriving DecidableEq

/-- `LAST_PRESENCES_CACHE_TTL = 2 * 60 * 1000` (milliseconds). -/
def LAST_PRESENCES_CACHE_TTL : Nat := 2 * 60 * 1000

/-- `getLastPresencesWithCache` (`src/unnamed/part_002` lines 249-266). -/
def getLastPresencesWithCache (st : PresencesCache) (now : Nat)
    (resp : UpstreamResponse) :
    Except FetchErr RespData × PresencesCache × Bool :=
  if st.cachedLastPresences.isSome
      && decide (now - st.lastPresencesFetchTime < LAST_PRESENCES_CACHE_TTL) then
    (.ok { success := some true, membros := none,
           data := st.cachedLastPresences },
      st, false)
  else
    match fetchFromAppsScript resp with
    | .error e => (.error e, st, true)
    | .ok data =>
      if data.success == some true then
        (.ok data,
          { cachedLastPresences := data.data, lastPresencesFetchTime := now },
          true)
      else (.ok data, st, true)

/-- The cache invalidation performed by `app.post("/presenca")`
(`src/unnamed/part_002` lines 1315-1316): `cachedLastPresences = null;
lastPresencesFetchTime = 0;`. -/
def invalidateLastPresences (_st : PresencesCache) : PresencesCache :=
  { cachedLastPresences := none, lastPresencesFetchTime := 0 }

/-- The JSON body of a `/login` request; either field may be absent. -/
structure LoginRequest where
  username : Option Str
  password : Option Str
deriving DecidableEq

/-- The terminal outcomes of `app.post("/login")` in `src/server.js`
(lines 151-212), one constructor per distinct response the route returns. -/
inductive LoginOutcome where
  | adminSuccess
  | leaderSuccess (nome : Option Str)
  | notLeaderDenied
  | wrongRIDenied
  | userNotFound
  | noMembros
  | serverError (e : FetchErr)
deriving DecidableEq

/-- The HTTP status code attached to each outcome. -/
def statusOf : LoginOutcome → Nat
  | .adminSuccess => 200
  | .leaderSuccess _ => 200
  | .notLeaderDenied => 401
  | .wrongRIDenied => 401
  | .userNotFound => 401
  | .noMembros => 404
  | .serverError _ => 500

/-- The `message` string attached to each outcome, verbatim from the
source. -/
def messageOf : LoginOutcome → String
  | .adminSuccess => "Login bem-sucedido como Administrador!"
  | .leaderSuccess nome =>
      "Login bem-sucedido, " ++ String.mk (nome.getD []) ++ "!"
  | .notLeaderDenied => "Usuário não possui permissão de líder."
  | .wrongRIDenied => "Senha (RI) inválida."
  | .userNotFound => "Usuário não encontrado."
  | .noMembros => "Erro: Dados de membros não carregados."
  | .serverError _ => "Erro interno do servidor ao autenticar."

/-- JS truthiness of an env-var string: present and non-empty. -/
def truthy : Option Str → Bool
  | none => false
  | some s => !s.isEmpty

/-- The admin short-circuit of `app.post("/login")` (`src/server.js`
line 154): `ADMIN_USERNAME && ADMIN_RI && normalizeString(username) ===
normalizeString(ADMIN_USERNAME) && password === ADMIN_RI`. -/
def adminCheckV1 (adminUsername adminRI : Option Str)
    (req : LoginRequest) : Bool :=
  truthy adminUsername && truthy adminRI
    && (normalizeVal req.username == normalizeVal adminUsername)
    && (req.password == adminRI)

/-- The member lookup of `src/server.js` line 166:
`membros.find(m => normalizeString(m.Nome || '').includes(usernameNormalized))`. -/
def findMembroV1 (usernameNormalized : Str) (membros : List Membro) :
    Option Membro :=
  membros.find? fun m =>
    jsIncludes (normalizeChars (m.Nome.getD [])) usernameNormalized

/-- The token looked for in `Cargo`/`Status` ("lider" after
normalization). -/
def liderToken : Str := "lider".data

/-- The role-based leadership test of `src/server.js` lines 171-176:
`cargoMembro.includes('lider') || statusMembro.includes('lider')`. -/
def isLeaderByRoleV1 (m : Membro) : Bool :=
  jsIncludes (normalizeChars (m.Cargo.getD [])) liderToken
    || jsIncludes (normalizeChars (m.Status.getD [])) liderToken

/-- Leader-name extraction from one roster row (`src/server.js` lines
181-188): trim `Lider`, and when the trimmed `Congregacao` is non-empty and
`"<Congregacao> | "` is a case-insensitive prefix of the trimmed `Lider`,
drop that prefix and trim again. -/
def extractLeaderNameV1 (outroMembro : Membro) : Str :=
  let liderNaPlanilhaCompleto := trimStr (outroMembro.Lider.getD [])
  let congregacaoOutroMembro := trimStr (outroMembro.Congregacao.getD [])
  let prefixo :=
    if congregacaoOutroMembro.isEmpty then []
    else congregacaoOutroMembro ++ [' ', '|', ' ']
  if !prefixo.isEmpty
      && List.isPrefixOf (prefixo.map jsCharToLower)
          (liderNaPlanilhaCompleto.map jsCharToLower) then
    trimStr (liderNaPlanilhaCompleto.drop prefixo.length)
  else liderNaPlanilhaCompleto

/-- The group-based leadership scan of `src/server.js` lines 180-194:
some roster row's extracted, normalized leader name stands in a
bidirectional prefix relation with the candidate's normalized name
(`nomeDoMembroLogando.startsWith(nomeLiderNormalizado) ||
nomeLiderNormalizado.startsWith(nomeDoMembroLogando)`). -/
def isGroupLeaderV1 (nomeDoMembroLogando : Str) (membros : List Membro) :
    Bool :=
  membros.any fun outroMembro =>
    let nomeLiderNormalizado := normalizeChars (extractLeaderNameV1 outroMembro)
    List.isPrefixOf nomeLiderNormalizado nomeDoMembroLogando
      || List.isPrefixOf nomeDoMembroLogando nomeLiderNormalizado

/-- `app.post("/login")` of `src/server.js` lines 151-212, end to end:
admin short-circuit, cached roster lookup, substring name matching,
trimmed credential check, then role-based or group-based leadership. -/
def loginV1 (adminUsername adminRI : Option Str) (req : LoginRequest)
    (st : MembrosCache) (now : Nat) (resp : UpstreamResponse) :
    LoginOutcome :=
  if adminCheckV1 adminUsername adminRI req then .adminSuccess
  else
    match (getMembrosWithCache st now resp).1 with
    | .error e => .serverError e
    | .ok responseData =>
      let membros := responseData.membros.getD []
      if membros.length == 0 then .noMembros
      else
        let usernameNormalized := normalizeVal req.username
        let passwordDigitado := trimStr (req.password.getD [])
        match findMembroV1 usernameNormalized membros with
        | none => .userNotFound
        | some membroEncontrado =>
          if trimStr (membroEncontrado.RI.getD []) == passwordDigitado then
            if isLeaderByRoleV1 membroEncontrado
                || isGroupLeaderV1 (normalizeVal membroEncontrado.Nome)
                    membros then
              .leaderSuccess membroEncontrado.Nome
            else .notLeaderDenied
          else .wrongRIDenied

/-- JS `str.split(' ')`: split at every single space character. -/
def splitSpace : Str → List Str
  | [] => [[]]
  | c :: cs =>
    match splitSpace cs with
    | [] => [[c]]
    | w :: ws => if c == ' ' then [] :: w :: ws else (c :: w) :: ws


/-- The tiered member lookup of `src/unnamed/part_004` lines 295-315:
exact normalized equality first, then prefix (`startsWith`), then
all-words-contained, the first hit of the first applicable tier winning. -/
def membroEncontradoPeloNome (username : Option Str)
    (membros : List Membro) : Option Membro :=
  let usernameDigitadoNormalized := normalizeStrictVal username
  match membros.find? (fun membro =>
      normalizeStrictChars (membro.Nome.getD [])
        == usernameDigitadoNormalized) with
  | some m => some m
  | none =>
    match membros.find? (fun membro =>
        List.isPrefixOf usernameDigitadoNormalized
          (normalizeStrictChars (membro.Nome.getD []))) with
    | some m => some m
    | none =>
      membros.find? fun membro =>
        let nomeMembroNaPlanilhaNormalized :=
          normalizeStrictChars (membro.Nome.getD [])
        let usernameWords :=
          (splitSpace usernameDigitadoNormalized).filter
            (fun w => 0 < w.length)
        usernameWords.all fun word =>
          jsIncludes nomeMembroNaPlanilhaNormalized word

/-- The `leaderName` field of the JSON body each outcome carries:
the fixed marker `'admin'` for the admin short-circuit (`src/server.js`
line 155), the member's raw `Nome` for a leader login (line 198), absent
otherwise. -/
def leaderNameOf : LoginOutcome → Option Str
  | .adminSuccess => some "admin".data
  | .leaderSuccess nome => nome
  | _ => none

/-! ### Concrete fixtures used by the claim witnesses -/

/-- A roster member used by several concrete witnesses. -/
def anaMembro : Membro :=
  { Nome := some "Ana Souza".data, RI := some "77".data, Cargo := none,
    Status := none, Lider := none, Congregacao := none }

/-- A one-member roster. -/
def anaRoster : List Membro := [anaMembro]

/-- A successful upstream response carrying `anaRoster`. -/
def anaResp : UpstreamResponse :=
  .httpResponse true 200
    (some { success := some true, membros := some anaRoster, data := none })

/-- A member whose normalized name is a strict extension of
"carlos souza". -/
def carlosLimaMembro : Membro :=
  { Nome := some "Carlos Souza Lima".data, RI := some "11".data,
    Cargo := none, Status := none, Lider := none, Congregacao := none }

/-- A member whose normalized name is exactly "carlos souza". -/
def carlosMembro : Membro :=
  { Nome := some "Carlos Souza".data, RI := some "123".data,
    Cargo := some "Membro".data, Status := none, Lider := none,
    Congregacao := none }

/-- Roster in which a prefix-tier record precedes the exact-tier record. -/
def carlosRoster : List Membro := [carlosLimaMembro, carlosMembro]

/-- A member naming "Maria S" as leader of group "G1". -/
def brunoMembro : Membro :=
  { Nome := some "Bruno".data, RI := none, Cargo := none, Status := none,
    Lider := some "G1 | Maria S".data, Congregacao := some "G1".data }

/-- A member whose `Lider` cell is whitespace-only. -/
def doraMembro : Membro :=
  { Nome := some "Dora".data, RI := some "5".data, Cargo := none,
    Status := none, Lider := some "   ".data,
    Congregacao := some "G2".data }

/-- Roster containing `carlosMembro` and a blank-`Lider` record. -/
def blankLiderRoster : List Membro := [carlosMembro, doraMembro]

/-- A successful upstream response carrying `blankLiderRoster`. -/
def blankLiderResp : UpstreamResponse :=
  .httpResponse true 200
    (some { success := some true, membros := some blankLiderRoster,
            data := none })

/-- A successful upstream response carrying `carlosRoster`. -/
def carlosResp : UpstreamResponse :=
  .httpResponse true 200
    (some { success := some true, membros := some carlosRoster,
            data := none })

/-! ### Normalizer lemmas -/

theorem lookup_mem_values {β : Type} (t : List (Char × β)) (k : Char) (v : β)
    (h : t.lookup k = some v) : v ∈ t.map Prod.snd := by
  induction t with
  | nil => simp [List.lookup] at h
  | cons p t ih =>
    obtain ⟨a, b⟩ := p
    rw [List.lookup] at h
    cases hb : (k == a) with
    | true => rw [hb] at h; simp at h; simp [h]
    | false =>
      rw [hb] at h
      simpa using Or.inr (ih h)

theorem upperLowerTable_values_fix :
    ∀ v ∈ upperLowerTable.map Prod.snd, upperLowerTable.lookup v = none := by
  decide

theorem jsCharToLower_idem (c : Char) :
    jsCharToLower (jsCharToLower c) = jsCharToLower c := by
  unfold jsCharToLower
  cases h : upperLowerTable.lookup c with
  | none => simp [h]
  | some v =>
    have hv := upperLowerTable_values_fix v (lookup_mem_values _ _ _ h)
    simp [h, hv]

theorem nfdTable_values_ok :
    ∀ ds ∈ nfdTable.map Prod.snd, ∀ d ∈ ds,
      isCombiningMark d = true ∨ stableChar d = true := by
  decide

theorem nfdChar_toLower_ok (c : Char) :
    ∀ d ∈ nfdChar (jsCharToLower c),
      isCombiningMark d = true ∨ stableChar d = true := by
  intro d hd
  unfold nfdChar at hd
  cases h : nfdTable.lookup (jsCharToLower c) with
  | some ds =>
    rw [h] at hd
    exact nfdTable_values_ok ds (lookup_mem_values _ _ _ h) d (by simpa using hd)
  | none =>
    rw [h] at hd
    simp at hd
    subst hd
    right
    unfold stableChar
    rw [jsCharToLower_idem]
    simp [nfdChar, h]

theorem stableChar_lower {c : Char} (h : stableChar c = true) :
    jsCharToLower c = c := by
  unfold stableChar at h
  exact eq_of_beq (Bool.and_eq_true .. ▸ h).1

theorem stableChar_nfd {c : Char} (h : stableChar c = true) :
    nfdChar c = [c] := by
  unfold stableChar at h
  exact eq_of_beq (Bool.and_eq_true .. ▸ h).2

theorem mem_trimLeft {c : Char} {l : Str} (h : c ∈ trimLeft l) : c ∈ l :=
  (List.dropWhile_sublist _).subset h

theorem mem_trimRight {c : Char} {l : Str} (h : c ∈ trimRight l) : c ∈ l := by
  unfold trimRight at h
  rw [List.mem_reverse] at h
  have := (List.dropWhile_sublist _).subset h
  rwa [List.mem_reverse] at this

theorem mem_trimStr {c : Char} {l : Str} (h : c ∈ trimStr l) : c ∈ l :=
  mem_trimLeft (mem_trimRight h)

theorem normalizeChars_mem_stable {s : Str} {d : Char}
    (h : d ∈ normalizeChars s) :
    stableChar d = true ∧ isCombiningMark d = false := by
  unfold normalizeChars at h
  have h1 := mem_trimStr h
  rw [List.mem_filter] at h1
  obtain ⟨h2, h3⟩ := h1
  rw [Bool.not_eq_eq_eq_not, Bool.not_true] at h3
  rw [List.mem_flatten] at h2
  obtain ⟨l, hl, hdl⟩ := h2
  rw [List.mem_map] at hl
  obtain ⟨x, hx, rfl⟩ := hl
  rw [List.mem_map] at hx
  obtain ⟨c0, _, rfl⟩ := hx
  rcases nfdChar_toLower_ok c0 d hdl with hmark | hstab
  · rw [hmark] at h3; cases h3
  · exact ⟨hstab, h3⟩

theorem normalizeStrictChars_mem_stable {s : Str} {d : Char}
    (h : d ∈ normalizeStrictChars s) :
    stableChar d = true ∧ isCombiningMark d = false ∧ keepStrict d = true := by
  unfold normalizeStrictChars at h
  have h1 := mem_trimStr h
  rw [List.mem_filter] at h1
  obtain ⟨h1, hkeep⟩ := h1
  rw [List.mem_filter] at h1
  obtain ⟨h2, h3⟩ := h1
  rw [Bool.not_eq_eq_eq_not, Bool.not_true] at h3
  rw [List.mem_flatten] at h2
  obtain ⟨l, hl, hdl⟩ := h2
  rw [List.mem_map] at hl
  obtain ⟨x, hx, rfl⟩ := hl
  rw [List.mem_map] at hx
  obtain ⟨c0, _, rfl⟩ := hx
  rcases nfdChar_toLower_ok c0 d hdl with hmark | hstab
  · rw [hmark] at h3; cases h3
  · exact ⟨hstab, h3, hkeep⟩

theorem map_toLower_of_stable {l : Str}
    (h : ∀ d ∈ l, stableChar d = true) : l.map jsCharToLower = l := by
  induction l with
  | nil => rfl
  | cons a t ih =>
    rw [List.map_cons, stableChar_lower (h a (List.mem_cons_self a t)),
      ih fun d hd => h d (List.mem_cons_of_mem a hd)]

theorem flatten_nfd_of_stable {l : Str}
    (h : ∀ d ∈ l, stableChar d = true) : (l.map nfdChar).flatten = l := by
  induction l with
  | nil => rfl
  | cons a t ih =>
    rw [List.map_cons, List.flatten_cons,
      stableChar_nfd (h a (List.mem_cons_self a t)),
      ih fun d hd => h d (List.mem_cons_of_mem a hd)]
    rfl

theorem dropWhile_head_ws {l m : Str} (hp : l <+: m)
    (hm : List.dropWhile isWs m = m) : List.dropWhile isWs l = l := by
  cases l with
  | nil => rfl
  | cons a t =>
    obtain ⟨r, hr⟩ := hp
    have ha : isWs a = false := by
      have h2 := List.head?_dropWhile_not isWs m
      rw [hm, ← hr] at h2
      simpa using h2
    simp [List.dropWhile_cons, ha]

theorem trimRight_isPrefix (m : Str) : trimRight m <+: m := by
  unfold trimRight
  have h1 : m.reverse.dropWhile isWs <:+ m.reverse := List.dropWhile_suffix _
  have h2 : (m.reverse.dropWhile isWs).reverse <+: m.reverse.reverse :=
    List.reverse_prefix.mpr h1
  simpa using h2

theorem trimRight_idem (l : Str) : trimRight (trimRight l) = trimRight l := by
  unfold trimRight
  rw [List.reverse_reverse, List.dropWhile_idempotent]

theorem trimStr_idem (l : Str) : trimStr (trimStr l) = trimStr l := by
  unfold trimStr trimLeft
  have hfix : List.dropWhile isWs (List.dropWhile isWs l)
      = List.dropWhile isWs l := List.dropWhile_idempotent ..
  rw [dropWhile_head_ws (trimRight_isPrefix _) hfix, trimRight_idem]

theorem normalizeChars_eq_trim_of_stable {l : Str}
    (h : ∀ d ∈ l, stableChar d = true ∧ isCombiningMark d = false) :
    normalizeChars l = trimStr l := by
  unfold normalizeChars
  rw [map_toLower_of_stable fun d hd => (h d hd).1,
    flatten_nfd_of_stable fun d hd => (h d hd).1,
    List.filter_eq_self.mpr fun d hd => by simp [(h d hd).2]]

theorem normalizeStrictChars_eq_trim_of_stable {l : Str}
    (h : ∀ d ∈ l, stableChar d = true ∧ isCombiningMark d = false
      ∧ keepStrict d = true) :
    normalizeStrictChars l = trimStr l := by
  unfold normalizeStrictChars
  rw [map_toLower_of_stable fun d hd => (h d hd).1,
    flatten_nfd_of_stable fun d hd => (h d hd).1,
    List.filter_eq_self.mpr
      fun d hd => (h d (List.mem_of_mem_filter hd)).2.2,
    List.filter_eq_self.mpr fun d hd => by simp [(h d hd).2.1]]

theorem trimStr_normalizeChars (s : Str) :
    trimStr (normalizeChars s) = normalizeChars s := by
  unfold normalizeChars
  exact trimStr_idem _

theorem trimStr_normalizeStrictChars (s : Str) :
    trimStr (normalizeStrictChars s) = normalizeStrictChars s := by
  unfold normalizeStrictChars
  exact trimStr_idem _

theorem normalizeChars_idem (s : Str) :
    normalizeChars (normalizeChars s) = normalizeChars s := by
  rw [normalizeChars_eq_trim_of_stable fun d hd => normalizeChars_mem_stable hd,
    trimStr_normalizeChars]

theorem normalizeStrictChars_idem (s : Str) :
    normalizeStrictChars (normalizeStrictChars s) = normalizeStrictChars s := by
  rw [normalizeStrictChars_eq_trim_of_stable
      fun d hd => normalizeStrictChars_mem_stable hd,
    trimStr_normalizeStrictChars]

/-! ### Cache lemmas -/

theorem getMembrosWithCache_fetches_on_miss (st : MembrosCache) (now : Nat)
    (resp : UpstreamResponse)
    (hmiss : (st.cachedMembros.isSome
      && decide (now - st.lastMembrosFetchTime < MEMBERS_CACHE_TTL))
        = false) :
    (getMembrosWithCache st now resp).2.2 = true := by
  unfold getMembrosWithCache
  rw [hmiss]
  cases h2 : fetchFromAppsScript resp with
  | error e => simp
  | ok data =>
    by_cases h3 : (data.success == some true) = true <;> simp [h3]

/-! ### Leadership lemmas -/

theorem isPrefixOf_nil_right {l : Str} (hl : l ≠ []) :
    List.isPrefixOf l ([] : Str) = false := by
  cases l with
  | nil => exact absurd rfl hl
  | cons a t => rfl

theorem extractLeaderNameV1_of_blank {b : Membro}
    (hblank : trimStr (b.Lider.getD []) = []) :
    extractLeaderNameV1 b = [] := by
  unfold extractLeaderNameV1
  rw [hblank]
  by_cases hc : (trimStr (b.Congregacao.getD [])).isEmpty = true
  · simp [hc]
  · rw [Bool.not_eq_true] at hc
    simp only [hc, Bool.false_eq_true, if_false, List.map_nil]
    rw [isPrefixOf_nil_right (by simp)]
    simp

theorem isGroupLeaderV1_of_blank (nome : Str) (ms : List Membro)
    (h : ∃ b ∈ ms, trimStr (b.Lider.getD []) = []) :
    isGroupLeaderV1 nome ms = true := by
  obtain ⟨b, hb, hblank⟩ := h
  unfold isGroupLeaderV1
  rw [List.any_eq_true]
  refine ⟨b, hb, ?_⟩
  rw [extractLeaderNameV1_of_blank hblank]
  have hempty : normalizeChars ([] : Str) = [] := rfl
  rw [hempty]
  simp [List.isPrefixOf]

/-! ### Claim theorems -/

/-- Claim C9: both normalizer variants are idempotent —
`normalize(normalize(s)) == normalize(s)` for every string `s` — and
non-string input is treated as the empty string, on which both variants
are fixed. -/
theorem c9_normalize_idempotent :
    (∀ s : Str, normalizeChars (normalizeChars s) = normalizeChars s) ∧
    (∀ s : Str,
      normalizeStrictChars (normalizeStrictChars s) = normalizeStrictChars s)
    ∧ normalizeVal none = [] ∧ normalizeStrictVal none = []
    ∧ normalizeChars [] = [] ∧ normalizeStrictChars [] = [] :=
  ⟨normalizeChars_idem, normalizeStrictChars_idem, rfl, rfl, rfl, rfl⟩

/-- Claim C7: after the invalidation performed by the `/presenca` route
(clearing `cachedLastPresences` and zeroing `lastPresencesFetchTime`), the
next `getLastPresencesWithCache` call performs an upstream fetch, whatever
the wall clock says and whatever state the cache held before. -/
theorem c7_invalidate_forces_fetch (st : PresencesCache) (now : Nat)
    (resp : UpstreamResponse) :
    (getLastPresencesWithCache (invalidateLastPresences st) now resp).2.2
      = true := by
  unfold invalidateLastPresences getLastPresencesWithCache
  simp only [Option.isSome_none, Bool.false_and, Bool.false_eq_true,
    if_false]
  cases h2 : fetchFromAppsScript resp with
  | error e => simp
  | ok data =>
    by_cases h3 : (data.success == some true) = true <;> simp [h3]

/-- Claim C5: while a roster is cached and `now - fetchedAt < TTL`,
`getMembrosWithCache` returns the cached roster unchanged, leaves the cache
state untouched and performs no upstream fetch — the upstream response is
never consulted. -/
theorem c5_cache_hit (st : MembrosCache) (now : Nat) (resp : UpstreamResponse)
    (hsome : st.cachedMembros.isSome = true)
    (httl : now - st.lastMembrosFetchTime < MEMBERS_CACHE_TTL) :
    getMembrosWithCache st now resp
      = (.ok { success := some true, membros := st.cachedMembros,
               data := none },
         st, false) := by
  unfold getMembrosWithCache
  rw [hsome]
  simp [httl]

/-- Witness for C5: a cached roster fetched at time 100 is served at time
150 even when the upstream is unreachable. -/
theorem c5_cache_hit_witness :
    getMembrosWithCache ⟨some anaRoster, 100⟩ 150 .transportFailure
      = (.ok { success := some true, membros := some anaRoster,
               data := none },
         ⟨some anaRoster, 100⟩, false) :=
  c5_cache_hit ⟨some anaRoster, 100⟩ 150 .transportFailure (by decide)
    (by decide)

/-- Claim C6: when the cache does not hit and the upstream fetch fails in
any of its failure classes, `getMembrosWithCache` propagates exactly that
error and leaves both the stored roster and the fetch timestamp unchanged,
and any later call (at any `now2 ≥ now`, with any upstream outcome)
performs a fetch again. -/
theorem c6_fetch_failure (st : MembrosCache) (now : Nat)
    (resp : UpstreamResponse) (e : FetchErr)
    (hmiss : ¬(st.cachedMembros.isSome = true
      ∧ now - st.lastMembrosFetchTime < MEMBERS_CACHE_TTL))
    (herr : fetchFromAppsScript resp = .error e) :
    getMembrosWithCache st now resp = (.error e, st, true) ∧
    ∀ (now2 : Nat) (resp2 : UpstreamResponse), now ≤ now2 →
      (getMembrosWithCache st now2 resp2).2.2 = true := by
  have hbool : (st.cachedMembros.isSome
      && decide (now - st.lastMembrosFetchTime < MEMBERS_CACHE_TTL))
        = false := by
    rw [Bool.and_eq_false_iff]
    by_cases h1 : st.cachedMembros.isSome = true
    · right
      simp only [decide_eq_false_iff_not]
      exact fun h2 => hmiss ⟨h1, h2⟩
    · left
      exact Bool.not_eq_true _ ▸ h1
  constructor
  · unfold getMembrosWithCache
    rw [hbool, herr]
    rfl
  · intro now2 resp2 hle
    apply getMembrosWithCache_fetches_on_miss
    rw [Bool.and_eq_false_iff] at hbool ⊢
    rcases hbool with h1 | h2
    · exact Or.inl h1
    · right
      simp only [decide_eq_false_iff_not] at h2 ⊢
      intro hlt
      exact h2 (lt_of_le_of_lt (Nat.sub_le_sub_right hle _) hlt)

/-- Witness for C6: an empty cache plus a transport failure yields the
propagated transport error, an unchanged cache, and an immediate retry. -/
theorem c6_fetch_failure_witness :
    getMembrosWithCache ⟨none, 0⟩ 0 .transportFailure
      = (.error .transport, ⟨none, 0⟩, true) ∧
    ∀ (now2 : Nat) (resp2 : UpstreamResponse), 0 ≤ now2 →
      (getMembrosWithCache ⟨none, 0⟩ now2 resp2).2.2 = true :=
  c6_fetch_failure ⟨none, 0⟩ 0 .transportFailure .transport
    (by simp) rfl

/-- Claim C3: the group-based leadership scan classifies a candidate as
leader exactly when some roster record, after dynamic-prefix stripping and
normalization of its `Lider` cell, stands in a bidirectional prefix
relation with the candidate's normalized name; in particular a candidate
named "Maria Silva" is a leader when some record has `Congregacao` "G1"
and `Lider` "G1 | Maria S". -/
theorem c3_group_leader_iff :
    (∀ (candidato : Membro) (membros : List Membro),
      isGroupLeaderV1 (normalizeVal candidato.Nome) membros = true ↔
        ∃ m ∈ membros,
          normalizeChars (extractLeaderNameV1 m) <+: normalizeVal candidato.Nome
          ∨ normalizeVal candidato.Nome
              <+: normalizeChars (extractLeaderNameV1 m)) ∧
    isGroupLeaderV1 (normalizeVal (some "Maria Silva".data)) [brunoMembro]
      = true := by
  constructor
  · intro candidato membros
    unfold isGroupLeaderV1
    rw [List.any_eq_true]
    constructor
    · rintro ⟨m, hm, hp⟩
      rw [Bool.or_eq_true, List.isPrefixOf_iff_prefix,
        List.isPrefixOf_iff_prefix] at hp
      exact ⟨m, hm, hp⟩
    · rintro ⟨m, hm, hp⟩
      refine ⟨m, hm, ?_⟩
      rw [Bool.or_eq_true, List.isPrefixOf_iff_prefix,
        List.isPrefixOf_iff_prefix]
      exact hp
  · decide

/-- Claim C1 is violated by the code: an empty or whitespace-only username
normalizes to the empty string, the empty string is a substring (and a
prefix) of every member name, so both the one-tier lookup of
`src/server.js` and the tiered lookup of `src/unnamed/part_004` select the
first roster member instead of rejecting the login as "user not found";
the login proceeds to the credential check. -/
theorem c1_empty_username_matches_first_member :
    normalizeVal (some "   ".data) = [] ∧
    findMembroV1 [] anaRoster = some anaMembro ∧
    membroEncontradoPeloNome (some "   ".data) anaRoster = some anaMembro ∧
    loginV1 none none
      { username := some "   ".data, password := some "99".data }
      ⟨none, 0⟩ 0 anaResp = .wrongRIDenied ∧
    loginV1 none none
      { username := some "   ".data, password := some "99".data }
      ⟨none, 0⟩ 0 anaResp ≠ .userNotFound := by
  decide

/-- Claim C2: the tiered lookup of `src/unnamed/part_004` tries exact,
then prefix, then word-subset; whenever some roster member's normalized
name equals the normalized username, the selected member is such an exact
match — earlier records that merely satisfy a more permissive tier cannot
displace it. -/
theorem c2_exact_match_wins (username : Option Str) (membros : List Membro)
    (h : ∃ m ∈ membros,
      normalizeStrictChars (m.Nome.getD []) = normalizeStrictVal username) :
    membroEncontradoPeloNome username membros
      = membros.find? (fun membro =>
          normalizeStrictChars (membro.Nome.getD [])
            == normalizeStrictVal username) ∧
    ∃ m, membroEncontradoPeloNome username membros = some m ∧
      normalizeStrictChars (m.Nome.getD []) = normalizeStrictVal username := by
  obtain ⟨m0, hm0, hex⟩ := h
  have hsome : (membros.find? (fun membro =>
      normalizeStrictChars (membro.Nome.getD [])
        == normalizeStrictVal username)).isSome = true := by
    rw [List.find?_isSome]
    exact ⟨m0, hm0, by simpa using hex⟩
  obtain ⟨m, hm⟩ := Option.isSome_iff_exists.mp hsome
  refine ⟨?_, m, ?_, ?_⟩
  · simp only [membroEncontradoPeloNome, hm]
  · simp only [membroEncontradoPeloNome, hm]
  · simpa using List.find?_some hm

/-- Witness for C2: in a roster where a longer-named member (prefix-tier
hit for "Carlos Souza") precedes the exactly-named member, the exact
member is selected. -/
theorem c2_exact_match_wins_witness :
    membroEncontradoPeloNome (some "Carlos Souza".data) carlosRoster
      = carlosRoster.find? (fun membro =>
          normalizeStrictChars (membro.Nome.getD [])
            == normalizeStrictVal (some "Carlos Souza".data)) ∧
    ∃ m, membroEncontradoPeloNome (some "Carlos Souza".data) carlosRoster
        = some m ∧
      normalizeStrictChars (m.Nome.getD [])
        = normalizeStrictVal (some "Carlos Souza".data) :=
  c2_exact_match_wins (some "Carlos Souza".data) carlosRoster
    ⟨carlosMembro, by decide, by decide⟩

/-- Claim C4: with an admin username/credential pair configured, a request
whose username normalizes to the admin username and whose password is
strictly equal to the admin credential yields `adminSuccess` with the
fixed `leaderName` marker "admin", for every cache state, wall clock and
upstream outcome — the roster is never consulted, so the result stands
even when the upstream fetch would fail. -/
theorem c4_admin_short_circuit (adminUsername adminRI : Str)
    (req : LoginRequest) (st : MembrosCache) (now : Nat)
    (resp : UpstreamResponse)
    (hu : adminUsername ≠ []) (hr : adminRI ≠ [])
    (hn : normalizeVal req.username = normalizeChars adminUsername)
    (hp : req.password = some adminRI) :
    loginV1 (some adminUsername) (some adminRI) req st now resp
      = .adminSuccess ∧
    leaderNameOf
      (loginV1 (some adminUsername) (some adminRI) req st now resp)
      = some "admin".data := by
  have hcheck : adminCheckV1 (some adminUsername) (some adminRI) req
      = true := by
    unfold adminCheckV1 truthy
    rw [hp, hn]
    simp [List.isEmpty_iff, hu, hr, normalizeVal]
  have hlog : loginV1 (some adminUsername) (some adminRI) req st now resp
      = .adminSuccess := by
    unfold loginV1
    rw [hcheck]
    rfl
  exact ⟨hlog, by rw [hlog]; rfl⟩

/-- Witness for C4: admin pair ("admin","secret"), request
("Admin","secret"), empty cache and an unreachable upstream still log in
as administrator. -/
theorem c4_admin_short_circuit_witness :
    loginV1 (some "admin".data) (some "secret".data)
      { username := some "Admin".data, password := some "secret".data }
      ⟨none, 0⟩ 0 .transportFailure = .adminSuccess ∧
    leaderNameOf (loginV1 (some "admin".data) (some "secret".data)
      { username := some "Admin".data, password := some "secret".data }
      ⟨none, 0⟩ 0 .transportFailure) = some "admin".data :=
  c4_admin_short_circuit "admin".data "secret".data
    { username := some "Admin".data, password := some "secret".data }
    ⟨none, 0⟩ 0 .transportFailure (by decide) (by decide) (by decide) rfl

/-- Claim C8: when a member is found by name but the trimmed credential
does not match the trimmed password, the outcome is the
"Senha (RI) inválida." denial, whose message differs from
"Usuário não encontrado."; and whenever the member lookup succeeds, the
login can never produce the user-not-found outcome. -/
theorem c8_wrong_credential_distinct (adminUsername adminRI : Option Str)
    (req : LoginRequest) (st : MembrosCache) (now : Nat)
    (resp : UpstreamResponse) (data : RespData) (m : Membro)
    (hadmin : adminCheckV1 adminUsername adminRI req = false)
    (hfetch : (getMembrosWithCache st now resp).1 = .ok data)
    (hfind : findMembroV1 (normalizeVal req.username) (data.membros.getD [])
      = some m)
    (hri : trimStr (m.RI.getD []) ≠ trimStr (req.password.getD [])) :
    loginV1 adminUsername adminRI req st now resp = .wrongRIDenied ∧
    messageOf .wrongRIDenied ≠ messageOf .userNotFound ∧
    ∀ (au2 ar2 : Option Str) (req2 : LoginRequest) (st2 : MembrosCache)
      (now2 : Nat) (resp2 : UpstreamResponse) (data2 : RespData)
      (m2 : Membro),
      (getMembrosWithCache st2 now2 resp2).1 = .ok data2 →
      findMembroV1 (normalizeVal req2.username) (data2.membros.getD [])
        = some m2 →
      loginV1 au2 ar2 req2 st2 now2 resp2 ≠ .userNotFound := by
  refine ⟨?_, by decide, ?_⟩
  · have hne : ((data.membros.getD []).length == 0) = false := by
      cases hmem : data.membros.getD [] with
      | nil => rw [hmem] at hfind; simp [findMembroV1] at hfind
      | cons a t => rfl
    have hbeq : (trimStr (m.RI.getD [])
        == trimStr (req.password.getD [])) = false := by
      rw [beq_eq_false_iff_ne]
      exact hri
    unfold loginV1
    rw [hadmin]
    simp only [Bool.false_eq_true, if_false]
    rw [hfetch]
    simp only [hne, Bool.false_eq_true, if_false, hfind, hbeq]
  · intro au2 ar2 req2 st2 now2 resp2 data2 m2 hfetch2 hfind2
    have hne2 : ((data2.membros.getD []).length == 0) = false := by
      cases hmem : data2.membros.getD [] with
      | nil => rw [hmem] at hfind2; simp [findMembroV1] at hfind2
      | cons a t => rfl
    unfold loginV1
    by_cases hadm2 : adminCheckV1 au2 ar2 req2 = true
    · rw [hadm2]
      simp
    · rw [Bool.not_eq_true] at hadm2
      rw [hadm2]
      simp only [Bool.false_eq_true, if_false]
      rw [hfetch2]
      simp only [hne2, Bool.false_eq_true, if_false, hfind2]
      split
      · split <;> simp
      · simp

/-- Witness for C8: "Carlos Souza" found in the roster with the wrong
password is denied with the invalid-credential message, not the
user-not-found one. -/
theorem c8_wrong_credential_distinct_witness :
    loginV1 none none
      { username := some "Carlos Souza".data,
        password := some "wrong".data }
      ⟨none, 0⟩ 0 carlosResp = .wrongRIDenied ∧
    messageOf .wrongRIDenied ≠ messageOf .userNotFound ∧
    ∀ (au2 ar2 : Option Str) (req2 : LoginRequest) (st2 : MembrosCache)
      (now2 : Nat) (resp2 : UpstreamResponse) (data2 : RespData)
      (m2 : Membro),
      (getMembrosWithCache st2 now2 resp2).1 = .ok data2 →
      findMembroV1 (normalizeVal req2.username) (data2.membros.getD [])
        = some m2 →
      loginV1 au2 ar2 req2 st2 now2 resp2 ≠ .userNotFound :=
  c8_wrong_credential_distinct none none
    { username := some "Carlos Souza".data, password := some "wrong".data }
    ⟨none, 0⟩ 0 carlosResp
    { success := some true, membros := some carlosRoster, data := none }
    carlosLimaMembro (by decide) rfl (by decide) (by decide)

/-- Claim C10: a roster record whose `Lider` cell is empty or
whitespace-only makes the group-based check accept every candidate (the
empty extracted leader name is a prefix of every name), so any member who
is found by name, passes the credential check and is not leader by
role/status is still classified a leader and logs in successfully. -/
theorem c10_blank_leader_everyone_leads (adminUsername adminRI : Option Str)
    (req : LoginRequest) (st : MembrosCache) (now : Nat)
    (resp : UpstreamResponse) (data : RespData) (m : Membro)
    (hadmin : adminCheckV1 adminUsername adminRI req = false)
    (hfetch : (getMembrosWithCache st now resp).1 = .ok data)
    (hfind : findMembroV1 (normalizeVal req.username) (data.membros.getD [])
      = some m)
    (hri : trimStr (m.RI.getD []) = trimStr (req.password.getD []))
    (hrole : isLeaderByRoleV1 m = false)
    (hblank : ∃ b ∈ data.membros.getD [],
      trimStr (b.Lider.getD []) = []) :
    (∀ (nome : Str) (ms : List Membro),
      (∃ b ∈ ms, trimStr (b.Lider.getD []) = []) →
      isGroupLeaderV1 nome ms = true) ∧
    loginV1 adminUsername adminRI req st now resp
      = .leaderSuccess m.Nome := by
  refine ⟨isGroupLeaderV1_of_blank, ?_⟩
  have hne : ((data.membros.getD []).length == 0) = false := by
    cases hmem : data.membros.getD [] with
    | nil => rw [hmem] at hfind; simp [findMembroV1] at hfind
    | cons a t => rfl
  have hbeq : (trimStr (m.RI.getD [])
      == trimStr (req.password.getD [])) = true := by
    rw [hri]
    exact beq_self_eq_true _
  have hlead : isGroupLeaderV1 (normalizeVal m.Nome) (data.membros.getD [])
      = true := isGroupLeaderV1_of_blank _ _ hblank
  unfold loginV1
  rw [hadmin]
  simp only [Bool.false_eq_true, if_false]
  rw [hfetch]
  simp only [hne, Bool.false_eq_true, if_false, hfind, hbeq, if_true,
    hrole, hlead, Bool.false_or]

/-- Witness for C10: "Carlos Souza" (role "Membro", no leadership
evidence of his own) logs in as leader because another record's `Lider`
cell is whitespace-only. -/
theorem c10_blank_leader_everyone_leads_witness :
    (∀ (nome : Str) (ms : List Membro),
      (∃ b ∈ ms, trimStr (b.Lider.getD []) = []) →
      isGroupLeaderV1 nome ms = true) ∧
    loginV1 none none
      { username := some "Carlos Souza".data, password := some "123".data }
      ⟨none, 0⟩ 0 blankLiderResp = .leaderSuccess carlosMembro.Nome :=
  c10_blank_leader_everyone_leads none none
    { username := some "Carlos Souza".data, password := some "123".data }
    ⟨none, 0⟩ 0 blankLiderResp
    { success := some true, membros := some blankLiderRoster, data := none }
    carlosMembro (by decide) rfl (by decide) (by decide) (by decide)
    ⟨doraMembro, by decide, by decide⟩

end BackendBras
